import Mathlib

/-!
Shallow embedding of the core of restic-compose-backup:
`restic_compose_backup/containers.py` (Container, Mount, RunningContainers)
and `restic_compose_backup/cli.py` (backup, start_backup_process, cleanup).

Python dictionaries coming from the container runtime are embedded as
records of `Option`-typed fields (absent key = `none`); label maps and the
State block are association lists.  Python exceptions are embedded as the
`PyError` type and fallible code returns `Except PyError _`.
-/

set_option linter.unusedVariables false

namespace ResticComposeBackup

/-- Python exceptions raised by the embedded code: `TypeError` (e.g. iterating
or doing membership tests on `None`), `NameError` (unbound local), and
`ValueError msg` (the explicit `raise ValueError(...)` calls). -/
inductive PyError where
  | typeError : PyError
  | nameError : PyError
  | valueError : String → PyError

deriving instance DecidableEq for PyError

/-- Label map of a container: the `Config -> Labels` dict, keys to values. -/
abbrev Labels := List (String × String)

/-- One entry of a raw mount dict (`Type`/`Name`/`Source`/`Destination`
fetched via `.get`, so each may be absent). -/
structure MountData where
  type : Option String
  name : Option String
  source : Option String
  destination : Option String

deriving instance DecidableEq for MountData

/-- The raw `Config` block of a container record: the code reads
`Image`, `Env` and `Labels` from it via `.get`. -/
structure ConfigBlock where
  image : Option String
  env : Option (List String)
  labels : Option Labels

deriving instance DecidableEq for ConfigBlock

/-- A raw container record as returned by the runtime query:
`Id`, `Name`, `State`, `Config`, `Mounts`, each fetched with `.get`
(absent = `none`).  The `State` dict is an association list because the
code tests its truthiness (`not self._state`) and reads `Running` from it. -/
structure ContainerData where
  id : Option String
  name : Option String
  state : Option (List (String × Bool))
  config : Option ConfigBlock
  mounts : Option (List MountData)

deriving instance DecidableEq for ContainerData

/-- `Mount.__init__` just stores the raw dict. -/
structure Mount where
  data : MountData

deriving instance DecidableEq for Mount

/-- `Mount.source`: `self._data.get('Source')`. -/
def Mount.source (m : Mount) : Option String := m.data.source

/-- `Mount.destination`: `self._data.get('Destination')`. -/
def Mount.destination (m : Mount) : Option String := m.data.destination

/-- `p` is a prefix of `s` (character lists).  Structural embedding of the
string-prefix primitive. -/
def isPrefixList (p s : List Char) : Bool :=
  match p, s with
  | [], _ => true
  | _ :: _, [] => false
  | a :: as, b :: bs => a = b && isPrefixList as bs

/-- `p` occurs as a contiguous run inside `s` (character lists). -/
def containsList (s p : List Char) : Bool :=
  match s with
  | [] => p.isEmpty
  | _ :: rest => isPrefixList p s || containsList rest p

/-- Python case-sensitive substring containment `pattern in s`: the empty
pattern is contained in every string. -/
def strContains (s pattern : String) : Bool :=
  containsList s.data pattern.data

/-- Python `str.strip()` on a character list: drop leading and trailing
whitespace. -/
def trimList (l : List Char) : List Char :=
  ((l.dropWhile Char.isWhitespace).reverse.dropWhile Char.isWhitespace).reverse

/-- Python `str.split(',')` on a character list: split on every comma,
keeping empty pieces. -/
def splitOnCommaList (l : List Char) : List (List Char) :=
  match l with
  | [] => [[]]
  | c :: rest =>
    let r := splitOnCommaList rest
    if c = ',' then [] :: r
    else
      match r with
      | [] => [[c]]
      | h :: t => (c :: h) :: t

/-- Modelled from the spec: `utils.is_true` lives in `utils.py`, which is not
under `src/`.  Per the spec (sections 6 and 7) a capability is enabled by its
per-container label value and an unknown or absent label always defaults to
disabled; we accept the customary affirmative strings. -/
def is_true (value : Option String) : Bool :=
  match value with
  | none => false
  | some v => v = "true" || v = "True" || v = "1"

/-- `Container._parse_pattern`: `None`/empty/non-string values mean
"no filter", otherwise the stripped value is split on commas.  (The
`type(value) is not str` branch cannot fire here because label values are
strings by construction.) -/
def parsePattern (value : Option String) : Option (List String) :=
  match value with
  | none => none
  | some v =>
    if v.data.isEmpty then none
    else
      let t := trimList v.data
      if t.length = 0 then none
      else some ((splitOnCommaList t).map (fun cs => String.mk cs))

/-- A constructed `Container`: the fields assigned by `Container.__init__`
after its validation checks succeeded. -/
structure Container where
  data : ContainerData
  state : List (String × Bool)
  config : ConfigBlock
  labels : Labels
  mounts : List Mount
  includePatterns : Option (List String)
  excludePatterns : Option (List String)

deriving instance DecidableEq for Container

/-- `Container.__init__`.  Order is the source order: the mounts list is
built first (`[Mount(mnt, ...) for mnt in data.get('Mounts')]` raises
`TypeError` when `Mounts` is absent, because it iterates `None`), then
`not self._state` (true for an absent or empty dict) raises
`ValueError('Container meta missing State')`, then an absent `Config`
raises, then an absent `Config -> Labels` raises; finally the include and
exclude patterns are parsed from the two volume-filter labels. -/
def Container.init (data : ContainerData) : Except PyError Container :=
  match data.mounts with
  | none => Except.error PyError.typeError
  | some ms =>
    let mounts := ms.map (fun m => { data := m : Mount })
    if data.state = none ∨ data.state = some [] then
      Except.error (PyError.valueError "Container meta missing State")
    else
      match data.config with
      | none => Except.error (PyError.valueError "Container meta missing Config")
      | some cfg =>
        match cfg.labels with
        | none => Except.error (PyError.valueError "Container meta missing Config->Labels")
        | some labels =>
          Except.ok
            { data := data,
              state := data.state.getD [],
              config := cfg,
              labels := labels,
              mounts := mounts,
              includePatterns := parsePattern (List.lookup "restic-compose-backup.volumes.include" labels),
              excludePatterns := parsePattern (List.lookup "restic-compose-backup.volumes.exclude" labels) }

/-- `Container.id`: `self._data.get('Id')`. -/
def Container.id (c : Container) : Option String := c.data.id

/-- `Container.get_label`: `return self._labels.get(name, None)`.
Note the source ignores its `default` parameter and always falls back to
`None` when the key is absent. -/
def Container.get_label (c : Container) (name : String) (default : Option String) : Option String :=
  List.lookup name c.labels

/-- `Container.service_name`: `self.get_label('com.docker.compose.service', default='')`. -/
def Container.service_name (c : Container) : Option String :=
  c.get_label "com.docker.compose.service" (some "")

/-- `Container.project_name`: `self.get_label('com.docker.compose.project', default='')`. -/
def Container.project_name (c : Container) : Option String :=
  c.get_label "com.docker.compose.project" (some "")

/-- `Container.is_oneoff`: `self.get_label('com.docker.compose.oneoff', default='False') == 'True'`. -/
def Container.is_oneoff (c : Container) : Bool :=
  decide (c.get_label "com.docker.compose.oneoff" (some "False") = some "True")

/-- `Container.volume_backup_enabled`. -/
def Container.volume_backup_enabled (c : Container) : Bool :=
  is_true (c.get_label "restic-compose-backup.volumes" none)

/-- `Container.mysql_backup_enabled`. -/
def Container.mysql_backup_enabled (c : Container) : Bool :=
  is_true (c.get_label "restic-compose-backup.mysql" none)

/-- `Container.mariadb_backup_enabled`. -/
def Container.mariadb_backup_enabled (c : Container) : Bool :=
  is_true (c.get_label "restic-compose-backup.mariadb" none)

/-- `Container.postgresql_backup_enabled`. -/
def Container.postgresql_backup_enabled (c : Container) : Bool :=
  is_true (c.get_label "restic-compose-backup.postgres" none)

/-- `Container.database_backup_enabled`: any of mysql/mariadb/postgres. -/
def Container.database_backup_enabled (c : Container) : Bool :=
  c.mysql_backup_enabled || c.mariadb_backup_enabled || c.postgresql_backup_enabled

/-- `Container.backup_enabled`: volume or database backup enabled. -/
def Container.backup_enabled (c : Container) : Bool :=
  c.volume_backup_enabled || c.database_backup_enabled

/-- `Container.is_backup_process_container`:
`self.get_label('restic-compose-backup.backup_process') == 'True'`. -/
def Container.is_backup_process_container (c : Container) : Bool :=
  decide (c.get_label "restic-compose-backup.backup_process" none = some "True")

/-- `Container.is_running`: `self._state.get('Running', False)`. -/
def Container.is_running (c : Container) : Bool :=
  (List.lookup "Running" c.state).getD false

/-- Python truthiness of an optional pattern list (`if self._include:`):
`None` and the empty list are falsy. -/
def pyTruthyPatterns (x : Option (List String)) : Bool :=
  match x with
  | none => false
  | some l => !l.isEmpty

/-- The inner loop of the include branch of `filter_mounts`: the for/else
walks the pattern list and keeps the mount on the first pattern contained in
`mount.source`.  The first membership test `pattern in mount.source` raises
`TypeError` when the source is absent (`None`). -/
def anyContains (patterns : List String) (source : Option String) : Except PyError Bool :=
  match patterns with
  | [] => Except.ok false
  | p :: rest =>
    match source with
    | none => Except.error PyError.typeError
    | some s => if strContains s p then Except.ok true else anyContains rest source

/-- Include branch of `Container.filter_mounts`: keep the mounts whose
source contains at least one pattern, preserving order. -/
def filterInclude (patterns : List String) (mounts : List Mount) : Except PyError (List Mount) :=
  match mounts with
  | [] => Except.ok []
  | m :: rest =>
    match anyContains patterns m.source with
    | Except.error e => Except.error e
    | Except.ok b =>
      match filterInclude patterns rest with
      | Except.error e => Except.error e
      | Except.ok tail => Except.ok (if b then m :: tail else tail)

/-- Exclude branch of `Container.filter_mounts`: keep the mounts whose
source contains none of the patterns, preserving order. -/
def filterExclude (patterns : List String) (mounts : List Mount) : Except PyError (List Mount) :=
  match mounts with
  | [] => Except.ok []
  | m :: rest =>
    match anyContains patterns m.source with
    | Except.error e => Except.error e
    | Except.ok b =>
      match filterExclude patterns rest with
      | Except.error e => Except.error e
      | Except.ok tail => Except.ok (if b then tail else m :: tail)

/-- `Container.filter_mounts`: `if self._include: ... elif self._exclude: ...
else: return self._mounts`. -/
def Container.filter_mounts (c : Container) : Except PyError (List Mount) :=
  if pyTruthyPatterns c.includePatterns then
    filterInclude (c.includePatterns.getD []) c.mounts
  else if pyTruthyPatterns c.excludePatterns then
    filterExclude (c.excludePatterns.getD []) c.mounts
  else
    Except.ok c.mounts

/-- `container_data.get('Id').startswith(os.environ['HOSTNAME'])`:
calling `.startswith` on an absent id (`None`) raises `TypeError`. -/
def pyStartswith (s : Option String) (pre : String) : Except PyError Bool :=
  match s with
  | none => Except.error PyError.typeError
  | some str => Except.ok (isPrefixList pre.data str.data)

/-- First loop of `RunningContainers.__init__`: for every record whose id
starts with the host identifier, construct a Container and assign it to
`this_container` (each later match overwrites the earlier one). -/
def findSelf (hostname : String) (records : List ContainerData) (found : Option Container) :
    Except PyError (Option Container) :=
  match records with
  | [] => Except.ok found
  | r :: rest =>
    match pyStartswith r.id hostname with
    | Except.error e => Except.error e
    | Except.ok false => findSelf hostname rest found
    | Except.ok true =>
      match Container.init r with
      | Except.error e => Except.error e
      | Except.ok c => findSelf hostname rest (some c)

/-- Second loop of `RunningContainers.__init__`: construct every record,
record any container carrying the backup-process marker as
`backup_process_container` (each later match overwrites the earlier one),
and append same-project, non-one-off, non-self containers to the group. -/
def scanGroup (thisC : Container) (records : List ContainerData)
    (bpc : Option Container) (acc : List Container) :
    Except PyError (Option Container × List Container) :=
  match records with
  | [] => Except.ok (bpc, acc)
  | r :: rest =>
    match Container.init r with
    | Except.error e => Except.error e
    | Except.ok c =>
      let bpc2 := if c.is_backup_process_container then some c else bpc
      let acc2 :=
        if c.project_name = thisC.project_name ∧ c.is_oneoff = false then
          if c.id ≠ thisC.id then acc ++ [c] else acc
        else acc
      scanGroup thisC rest bpc2 acc2

/-- The constructed `RunningContainers` value. -/
structure RunningContainers where
  containers : List Container
  this_container : Container
  backup_process_container : Option Container

deriving instance DecidableEq for RunningContainers

/-- `RunningContainers.__init__`, with the record list (the result of
`utils.list_containers()`) and the `HOSTNAME` environment variable passed in
explicitly.  When the first loop leaves `this_container` unset
(`if not self.this_container`), it raises
`ValueError("Cannot find metadata for backup container")`. -/
def RunningContainers.init (hostname : String) (all_containers : List ContainerData) :
    Except PyError RunningContainers :=
  match findSelf hostname all_containers none with
  | Except.error e => Except.error e
  | Except.ok none => Except.error (PyError.valueError "Cannot find metadata for backup container")
  | Except.ok (some thisC) =>
    match scanGroup thisC all_containers none [] with
    | Except.error e => Except.error e
    | Except.ok (bpc, cs) =>
      Except.ok { containers := cs, this_container := thisC, backup_process_container := bpc }

/-- `RunningContainers.project_name`. -/
def RunningContainers.project_name (rc : RunningContainers) : Option String :=
  rc.this_container.project_name

/-- `RunningContainers.backup_process_running`:
`self.backup_process_container is not None`. -/
def RunningContainers.backup_process_running (rc : RunningContainers) : Bool :=
  rc.backup_process_container.isSome

/-- `RunningContainers.containers_for_backup`: the group members with
backup enabled. -/
def RunningContainers.containers_for_backup (rc : RunningContainers) : List Container :=
  rc.containers.filter (fun c => c.backup_enabled)

/-- `Container.__eq__` as used in the guard of `start_backup_process`:
comparing against `None` gives `False`, otherwise ids are compared. -/
def containerEq (c : Container) (other : Option Container) : Bool :=
  match other with
  | none => false
  | some o => decide (c.id = o.id)

/-- The trailing `is False` of the chained comparison
`containers.this_container == containers.backup_process_container is False`:
an identity test of `backup_process_container` against the `False`
singleton.  That value is always `None` or a Container object, never the
boolean `False`, so the test is constantly false. -/
def isFalseLiteral (other : Option Container) : Bool := false

/-- The guard of `start_backup_process`.  Python chains
`a == b is False` into `(a == b) and (b is False)`, so the condition is
`not backup_process_container or (this == bpc and bpc is False)`. -/
def guardAborts (containers : RunningContainers) : Bool :=
  containers.backup_process_container.isNone
  || (containerEq containers.this_container containers.backup_process_container
      && isFalseLiteral containers.backup_process_container)

/-- Delegate calls performed by the inner backup process, in order. -/
inductive Ev where
  | volumeBackup : Ev
  | dbBackup : Nat → Ev
  | forget : Ev
  | prune : Ev

deriving instance DecidableEq for Ev

/-- How the inner backup process command terminates: early `return` from
the guard, `exit(1)`, an uncaught exception, or falling off the end of the
function (process exit code 0). -/
inductive RunOutcome where
  | aborted : RunOutcome
  | exited : Nat → RunOutcome
  | crashed : PyError → RunOutcome
  | completed : RunOutcome

deriving instance DecidableEq for RunOutcome

/-- Outcomes of the external delegates (restic invocations and the per
database `instance.backup()` calls): each either raises or returns an exit
code.  `db_backup i` is the outcome of the i-th database backup attempt,
counting database-enabled containers in group order. -/
structure BackupEnv where
  backup_files : Except PyError Int
  db_backup : Nat → Except PyError Int
  forget : Int
  prune : Int

/-- A backup target failed: its try-block raised, or it returned a
non-zero exit code. -/
def targetFailed (r : Except PyError Int) : Bool :=
  match r with
  | Except.error _ => true
  | Except.ok code => decide (code ≠ 0)

/-- `cli.cleanup`: runs forget then prune and returns the *boolean*
`forget_result == 0 and prune_result == 0` (not an exit code). -/
def cleanup (env : BackupEnv) : Bool :=
  decide (env.forget = 0) && decide (env.prune = 0)

/-- Python `result != 0` applied to the boolean returned by `cleanup`:
since `True == 1` and `False == 0`, the test is the boolean itself, so a
*successful* cleanup makes `result != 0` true. -/
def pyNeZero (b : Bool) : Bool := b

/-- The database loop of `start_backup_process`: for every container of
`containers_for_backup()` with database backup enabled, attempt the backup
(recording a `dbBackup` event) and accumulate the error flag; the loop never
breaks early.  Returns (error flag, next index, events). -/
def dbLoop (f : Nat → Except PyError Int) (cs : List Container) (i : Nat) (errors : Bool) :
    Bool × Nat × List Ev :=
  match cs with
  | [] => (errors, i, [])
  | c :: rest =>
    if c.database_backup_enabled then
      let failed := targetFailed (f i)
      let r := dbLoop f rest (i + 1) (errors || failed)
      (r.1, r.2.1, Ev.dbBackup i :: r.2.2)
    else dbLoop f rest i errors

/-- `cli.start_backup_process`.  The initial `status(config, containers)`
call only logs the detected configuration and does not affect control flow,
so it is not modelled.  After the guard: the volume backup try-block sets
the error flag on a raise or a non-zero exit, the database loop accumulates
failures without breaking, `exit(1)` fires when any target failed, and
otherwise `cleanup(config, container)` is evaluated — note the argument is
the database loop variable, so an empty `containers_for_backup()` leaves it
unbound and raises `NameError` — and its boolean result is compared with
`!= 0`. -/
def start_backup_process (env : BackupEnv) (containers : RunningContainers) :
    RunOutcome × List Ev :=
  if guardAborts containers then (RunOutcome.aborted, [])
  else
    let errors0 := targetFailed env.backup_files
    let r := dbLoop env.db_backup containers.containers_for_backup 0 errors0
    let trace := Ev.volumeBackup :: r.2.2
    if r.1 then (RunOutcome.exited 1, trace)
    else
      match containers.containers_for_backup.getLast? with
      | none => (RunOutcome.crashed PyError.nameError, trace)
      | some _ =>
        if pyNeZero (cleanup env) then (RunOutcome.exited 1, trace ++ [Ev.forget, Ev.prune])
        else (RunOutcome.completed, trace ++ [Ev.forget, Ev.prune])

/-- Steps of the outer `cli.backup` command that talk to the outside world. -/
inductive BackupStep where
  | initRepo : BackupStep
  | spawn : BackupStep
  | alertSent : BackupStep

deriving instance DecidableEq for BackupStep

/-- `cli.backup`: raise `ValueError("Backup process already running")` when
the single-flight guard trips, else initialize the repository, spawn the
backup-process container (an exception from the spawn is logged and
alerted, a non-zero exit code is alerted).  Returns the steps performed and
the raised error, if any. -/
def backup (spawnResult : Except PyError Int) (containers : RunningContainers) :
    List BackupStep × Except PyError Unit :=
  if containers.backup_process_running then
    ([], Except.error (PyError.valueError "Backup process already running"))
  else
    match spawnResult with
    | Except.error _ =>
      ([BackupStep.initRepo, BackupStep.spawn, BackupStep.alertSent], Except.ok ())
    | Except.ok code =>
      if code ≠ 0 then ([BackupStep.initRepo, BackupStep.spawn, BackupStep.alertSent], Except.ok ())
      else ([BackupStep.initRepo, BackupStep.spawn], Except.ok ())

/-! ### Specification-side helper definitions -/

/-- The first of two options that is set. -/
def optOr (a b : Option Container) : Option Container :=
  match a with
  | some x => some x
  | none => b

/-- The record's id is present and has the host identifier as a prefix. -/
def matchesHost (hostname : String) (r : ContainerData) : Bool :=
  match r.id with
  | some s => isPrefixList hostname.data s.data
  | none => false

/-- The last record in the list whose id is prefixed by the host
identifier, if any. -/
def lastMatchingRecord (hostname : String) (records : List ContainerData) : Option ContainerData :=
  match records with
  | [] => none
  | r :: rest =>
    match lastMatchingRecord hostname rest with
    | some x => some x
    | none => if matchesHost hostname r then some r else none

/-- The container constructed from the last record in the list that
constructs successfully into a container carrying the backup-process marker
label, if any. -/
def lastMarkedRec (records : List ContainerData) : Option Container :=
  match records with
  | [] => none
  | r :: rest =>
    match lastMarkedRec rest with
    | some x => some x
    | none =>
      match Container.init r with
      | Except.ok c => if c.is_backup_process_container then some c else none
      | Except.error _ => none

/-- The condition under which the discovery loop appends a container to the
group: same project as self, not one-off, different id from self. -/
abbrev peerCond (thisC c : Container) : Prop :=
  c.project_name = thisC.project_name ∧ c.is_oneoff = false ∧ c.id ≠ thisC.id

/-- Number of database-enabled containers in a list. -/
def dbEnabledCount (cs : List Container) : Nat :=
  (cs.filter (fun c => c.database_backup_enabled)).length

/-- Some database target among the database-enabled containers of `cs`,
numbered from `i`, fails. -/
def anyDbFail (f : Nat → Except PyError Int) (cs : List Container) (i : Nat) : Bool :=
  match cs with
  | [] => false
  | c :: rest =>
    if c.database_backup_enabled then targetFailed (f i) || anyDbFail f rest (i + 1)
    else anyDbFail f rest i

/-- The mount's source is present and contains at least one of the
patterns as a substring. -/
def mountMatchesAny (patterns : List String) (m : Mount) : Bool :=
  patterns.any (fun p =>
    match m.source with
    | some s => strContains s p
    | none => false)

/-! ### Concrete fixtures used by the counterexamples and witnesses -/

/-- A well-formed raw record: running state, a config block with the given
labels, and an empty mounts list. -/
def mkRecord (id : String) (labels : Labels) : ContainerData :=
  { id := some id,
    name := some ("/c-" ++ id),
    state := some [("Running", true)],
    config := some { image := some "restic-backup", env := some [], labels := some labels },
    mounts := some [] }

/-- Fallback container used only to strip the `Except` wrapper on concrete,
known-good constructions. -/
def fallbackContainer : Container :=
  { data := mkRecord "fallback" [],
    state := [("Running", true)],
    config := { image := none, env := none, labels := some [] },
    labels := [],
    mounts := [],
    includePatterns := none,
    excludePatterns := none }

/-- The container constructed from a concrete well-formed record. -/
def contOf (d : ContainerData) : Container :=
  (Container.init d).toOption.getD fallbackContainer

def projLabel : String × String := ("com.docker.compose.project", "proj")

def markerLabel : String × String := ("restic-compose-backup.backup_process", "True")

def mysqlLabel : String × String := ("restic-compose-backup.mysql", "True")

def selfRecA : ContainerData := mkRecord "aaa111000" [projLabel]

def otherRecA : ContainerData := mkRecord "bbb222000" [projLabel, markerLabel, mysqlLabel]

def selfRecB : ContainerData := mkRecord "ccc000111" [projLabel, markerLabel]

def peerRecB : ContainerData := mkRecord "ddd000222" [projLabel, mysqlLabel]

def envAllOk : BackupEnv :=
  { backup_files := Except.ok 0, db_backup := fun i => Except.ok 0, forget := 0, prune := 0 }

def envForgetFails : BackupEnv :=
  { backup_files := Except.ok 0, db_backup := fun i => Except.ok 0, forget := 1, prune := 0 }

def envVolumeRaises : BackupEnv :=
  { backup_files := Except.error PyError.typeError, db_backup := fun i => Except.ok 0,
    forget := 0, prune := 0 }

def selfRec2a : ContainerData := mkRecord "aax111" [projLabel]

def selfRec2b : ContainerData := mkRecord "aay222" [projLabel]

def selfRecC : ContainerData := mkRecord "eee000" [projLabel]

def markedRec1 : ContainerData := mkRecord "fff111" [projLabel, markerLabel]

def markedRec2 : ContainerData := mkRecord "ggg222" [projLabel, markerLabel]

def selfRecD : ContainerData := mkRecord "iii000" [projLabel]

/-- A same-project, non-one-off record whose `State` says it is not
running. -/
def stoppedRec : ContainerData :=
  { mkRecord "jjj111" [projLabel] with state := some [("Running", false)] }

def emptyLabelsRec : ContainerData := mkRecord "hhh000" []

/-- A record whose `State`, `Config` and `Config -> Labels` are all present
but whose `Mounts` key is absent. -/
def noMountsRec : ContainerData := { mkRecord "kkk000" [] with mounts := none }

/-! ### Helper lemmas about discovery -/

theorem pyStartswith_eq_matches (hostname : String) (r : ContainerData)
    (h : r.id.isSome = true) :
    pyStartswith r.id hostname = Except.ok (matchesHost hostname r) := by
  cases hid : r.id with
  | none => rw [hid] at h; simp at h
  | some s => simp [pyStartswith, matchesHost, hid]

theorem optOr_none (a : Option Container) : optOr a none = a := by
  cases a <;> rfl

theorem scanGroup_ok (thisC : Container) (records : List ContainerData) :
    ∀ b a, (∀ r ∈ records, ∃ c, Container.init r = Except.ok c) →
      ∃ res, scanGroup thisC records b a = Except.ok res := by
  induction records with
  | nil => intro b a _; exact ⟨(b, a), rfl⟩
  | cons r rest ih =>
    intro b a hok
    obtain ⟨c, hc⟩ := hok r (List.mem_cons_self r rest)
    have hrest : ∀ r2 ∈ rest, ∃ c2, Container.init r2 = Except.ok c2 :=
      fun r2 h2 => hok r2 (List.mem_cons_of_mem r h2)
    obtain ⟨res, hres⟩ := ih _ _ hrest
    refine ⟨res, ?_⟩
    simp only [scanGroup, hc]
    exact hres

theorem scanGroup_bpc (thisC : Container) (records : List ContainerData) :
    ∀ b a res, scanGroup thisC records b a = Except.ok res →
      res.1 = optOr (lastMarkedRec records) b := by
  induction records with
  | nil =>
    intro b a res h
    simp only [scanGroup] at h
    cases h
    rfl
  | cons r rest ih =>
    intro b a res h
    simp only [scanGroup] at h
    cases hc : Container.init r with
    | error e => rw [hc] at h; cases h
    | ok c =>
      rw [hc] at h
      have step := ih _ _ _ h
      rw [step]
      simp only [lastMarkedRec, hc]
      cases hl : lastMarkedRec rest with
      | some x => simp [optOr]
      | none =>
        by_cases hm : c.is_backup_process_container
        · simp [optOr, hm]
        · simp [optOr, hm]

theorem scanGroup_mem (thisC : Container) (records : List ContainerData) :
    ∀ b a res, scanGroup thisC records b a = Except.ok res →
      ∀ x : Container,
        x ∈ res.2 ↔ x ∈ a ∨ ∃ r, r ∈ records ∧ Container.init r = Except.ok x ∧ peerCond thisC x := by
  induction records with
  | nil =>
    intro b a res h x
    simp only [scanGroup] at h
    cases h
    simp
  | cons r rest ih =>
    intro b a res h x
    simp only [scanGroup] at h
    cases hc : Container.init r with
    | error e => rw [hc] at h; cases h
    | ok c =>
      rw [hc] at h
      have step := ih _ _ _ h x
      rw [step]
      have hacc :
          (x ∈ (if c.project_name = thisC.project_name ∧ c.is_oneoff = false then
                  if c.id ≠ thisC.id then a ++ [c] else a
                else a)) ↔ x ∈ a ∨ (x = c ∧ peerCond thisC c) := by
        by_cases hp : c.project_name = thisC.project_name ∧ c.is_oneoff = false
        · by_cases hid : c.id ≠ thisC.id
          · rw [if_pos hp, if_pos hid]
            simp only [List.mem_append, List.mem_singleton]
            constructor
            · rintro (hx | hx)
              · exact Or.inl hx
              · exact Or.inr ⟨hx, hp.1, hp.2, hid⟩
            · rintro (hx | ⟨hx, _⟩)
              · exact Or.inl hx
              · exact Or.inr hx
          · rw [if_pos hp, if_neg hid]
            constructor
            · exact Or.inl
            · rintro (hx | ⟨hx, _, _, hid2⟩)
              · exact hx
              · exact absurd hid2 hid
        · rw [if_neg hp]
          constructor
          · exact Or.inl
          · rintro (hx | ⟨hx, hproj, hone, _⟩)
            · exact hx
            · exact absurd ⟨hproj, hone⟩ hp
      rw [hacc]
      have hinitx : ∀ h2 : Container.init r = Except.ok x, x = c := by
        intro h2
        rw [hc] at h2
        cases h2
        rfl
      constructor
      · rintro ((hx | ⟨hx, hcond⟩) | ⟨r2, hr2, hx, hcond⟩)
        · exact Or.inl hx
        · subst hx
          exact Or.inr ⟨r, List.mem_cons_self r rest, hc, hcond⟩
        · exact Or.inr ⟨r2, List.mem_cons_of_mem r hr2, hx, hcond⟩
      · rintro (hx | ⟨r2, hr2, hx, hcond⟩)
        · exact Or.inl (Or.inl hx)
        · rcases List.mem_cons.mp hr2 with hr2 | hr2
          · subst hr2
            have := hinitx hx
            subst this
            exact Or.inl (Or.inr ⟨rfl, hcond⟩)
          · exact Or.inr ⟨r2, hr2, hx, hcond⟩

theorem findSelf_spec (hostname : String) (records : List ContainerData) :
    ∀ acc : Option Container,
      (∀ r ∈ records, r.id.isSome = true) →
      (∀ r ∈ records, matchesHost hostname r = true → ∃ c, Container.init r = Except.ok c) →
      (lastMatchingRecord hostname records = none →
        findSelf hostname records acc = Except.ok acc) ∧
      (∀ r, lastMatchingRecord hostname records = some r →
        ∃ c, Container.init r = Except.ok c ∧
          findSelf hostname records acc = Except.ok (some c)) := by
  induction records with
  | nil =>
    intro acc _ _
    exact ⟨fun _ => rfl, fun r h => by cases h⟩
  | cons r0 rest ih =>
    intro acc hids hok
    have hid0 : r0.id.isSome = true := hids r0 (List.mem_cons_self r0 rest)
    have hidr : ∀ r ∈ rest, r.id.isSome = true :=
      fun r h => hids r (List.mem_cons_of_mem r0 h)
    have hokr : ∀ r ∈ rest, matchesHost hostname r = true → ∃ c, Container.init r = Except.ok c :=
      fun r h => hok r (List.mem_cons_of_mem r0 h)
    have hstep : pyStartswith r0.id hostname = Except.ok (matchesHost hostname r0) :=
      pyStartswith_eq_matches hostname r0 hid0
    by_cases hm : matchesHost hostname r0 = true
    · obtain ⟨c0, hc0⟩ := hok r0 (List.mem_cons_self r0 rest) hm
      have hunfold : findSelf hostname (r0 :: rest) acc = findSelf hostname rest (some c0) := by
        simp only [findSelf, hstep, hm, hc0]
      have ihr := ih (some c0) hidr hokr
      constructor
      · intro hl
        simp only [lastMatchingRecord, hm] at hl
        cases hrest : lastMatchingRecord hostname rest with
        | some x => rw [hrest] at hl; cases hl
        | none => rw [hrest] at hl; simp at hl
      · intro r hl
        simp only [lastMatchingRecord] at hl
        cases hrest : lastMatchingRecord hostname rest with
        | some x =>
          rw [hrest] at hl
          cases hl
          obtain ⟨c, hc, hfs⟩ := ihr.2 r hrest
          exact ⟨c, hc, by rw [hunfold]; exact hfs⟩
        | none =>
          rw [hrest] at hl
          rw [hm] at hl
          simp only [if_pos] at hl
          cases hl
          refine ⟨c0, hc0, ?_⟩
          rw [hunfold]
          exact ihr.1 hrest
    · have hmf : matchesHost hostname r0 = false := by
        cases hmx : matchesHost hostname r0 with
        | true => exact absurd hmx hm
        | false => rfl
      have hunfold : findSelf hostname (r0 :: rest) acc = findSelf hostname rest acc := by
        simp only [findSelf, hstep, hmf]
      have ihr := ih acc hidr hokr
      constructor
      · intro hl
        simp only [lastMatchingRecord, hmf] at hl
        rw [hunfold]
        cases hrest : lastMatchingRecord hostname rest with
        | some x => rw [hrest] at hl; cases hl
        | none => exact ihr.1 hrest
      · intro r hl
        simp only [lastMatchingRecord, hmf] at hl
        rw [hunfold]
        cases hrest : lastMatchingRecord hostname rest with
        | some x =>
          rw [hrest] at hl
          cases hl
          exact ihr.2 r hrest
        | none =>
          rw [hrest] at hl
          simp at hl

theorem init_ok_inv (hostname : String) (records : List ContainerData) (rc : RunningContainers)
    (h : RunningContainers.init hostname records = Except.ok rc) :
    findSelf hostname records none = Except.ok (some rc.this_container) ∧
    scanGroup rc.this_container records none [] =
      Except.ok (rc.backup_process_container, rc.containers) := by
  unfold RunningContainers.init at h
  split at h
  · cases h
  · cases h
  · rename_i thisC hfs
    split at h
    · cases h
    · rename_i bpc cs hsg
      cases h
      exact ⟨hfs, hsg⟩

theorem lastMarkedRec_isSome_iff (records : List ContainerData) :
    (lastMarkedRec records).isSome = true ↔
      ∃ r, r ∈ records ∧ ∃ c, Container.init r = Except.ok c ∧
        c.is_backup_process_container = true := by
  induction records with
  | nil => simp [lastMarkedRec]
  | cons r rest ih =>
    cases hl : lastMarkedRec rest with
    | some x =>
      have h1 : lastMarkedRec (r :: rest) = some x := by simp [lastMarkedRec, hl]
      rw [hl] at ih
      simp only [Option.isSome_some, true_iff] at ih
      obtain ⟨r2, hr2, c2, hc2⟩ := ih
      simp only [h1, Option.isSome_some, true_iff]
      exact ⟨r2, List.mem_cons_of_mem r hr2, c2, hc2⟩
    | none =>
      rw [hl] at ih
      simp only [Option.isSome_none, Bool.false_eq_true, false_iff] at ih
      cases hc : Container.init r with
      | error e =>
        have h1 : lastMarkedRec (r :: rest) = none := by simp [lastMarkedRec, hl, hc]
        simp only [h1, Option.isSome_none, Bool.false_eq_true, false_iff]
        rintro ⟨r2, hr2, c2, hc2, hm2⟩
        rcases List.mem_cons.mp hr2 with hr2 | hr2
        · subst hr2
          rw [hc] at hc2
          cases hc2
        · exact ih ⟨r2, hr2, c2, hc2, hm2⟩
      | ok c =>
        by_cases hm : c.is_backup_process_container = true
        · have h1 : lastMarkedRec (r :: rest) = some c := by simp [lastMarkedRec, hl, hc, hm]
          simp only [h1, Option.isSome_some, true_iff]
          exact ⟨r, List.mem_cons_self r rest, c, hc, hm⟩
        · have h1 : lastMarkedRec (r :: rest) = none := by simp [lastMarkedRec, hl, hc, hm]
          simp only [h1, Option.isSome_none, Bool.false_eq_true, false_iff]
          rintro ⟨r2, hr2, c2, hc2, hm2⟩
          rcases List.mem_cons.mp hr2 with hr2 | hr2
          · subst hr2
            rw [hc] at hc2
            cases hc2
            exact hm hm2
          · exact ih ⟨r2, hr2, c2, hc2, hm2⟩

/-! ### Helper lemmas about the inner backup process -/

theorem dbLoop_fst (f : Nat → Except PyError Int) (cs : List Container) :
    ∀ i e, (dbLoop f cs i e).1 = (e || anyDbFail f cs i) := by
  induction cs with
  | nil => intro i e; simp [dbLoop, anyDbFail]
  | cons c rest ih =>
    intro i e
    by_cases hdb : c.database_backup_enabled = true
    · simp [dbLoop, anyDbFail, hdb, ih, Bool.or_assoc]
    · simp [dbLoop, anyDbFail, hdb, ih]

theorem dbLoop_mem (f : Nat → Except PyError Int) (cs : List Container) :
    ∀ i e j, j < dbEnabledCount cs → Ev.dbBackup (i + j) ∈ (dbLoop f cs i e).2.2 := by
  induction cs with
  | nil => intro i e j hj; simp [dbEnabledCount] at hj
  | cons c rest ih =>
    intro i e j hj
    by_cases hdb : c.database_backup_enabled = true
    · simp only [dbLoop, hdb, if_pos]
      cases j with
      | zero => simp
      | succ k =>
        have hk : k < dbEnabledCount rest := by
          simp only [dbEnabledCount, List.filter_cons, hdb, List.length_cons] at hj
          simpa [dbEnabledCount] using Nat.lt_of_succ_lt_succ hj
        have := ih (i + 1) (e || targetFailed (f i)) k hk
        have harith : i + (k + 1) = (i + 1) + k := by omega
        rw [harith]
        exact List.mem_cons_of_mem _ this
    · have hcount : dbEnabledCount (c :: rest) = dbEnabledCount rest := by
        simp [dbEnabledCount, List.filter_cons, hdb]
      rw [hcount] at hj
      simp only [dbLoop, hdb, if_neg]
      exact ih i e j hj

theorem dbLoop_evs_shape (f : Nat → Except PyError Int) (cs : List Container) :
    ∀ i e x, x ∈ (dbLoop f cs i e).2.2 → ∃ k, x = Ev.dbBackup k := by
  induction cs with
  | nil => intro i e x hx; simp [dbLoop] at hx
  | cons c rest ih =>
    intro i e x hx
    by_cases hdb : c.database_backup_enabled = true
    · simp only [dbLoop, hdb, if_pos] at hx
      rcases List.mem_cons.mp hx with hx | hx
      · exact ⟨i, hx⟩
      · exact ih _ _ x hx
    · simp only [dbLoop, hdb, if_neg] at hx
      exact ih _ _ x hx

theorem anyDbFail_iff (f : Nat → Except PyError Int) (cs : List Container) :
    ∀ i, anyDbFail f cs i = true ↔
      ∃ j, j < dbEnabledCount cs ∧ targetFailed (f (i + j)) = true := by
  induction cs with
  | nil => intro i; simp [anyDbFail, dbEnabledCount]
  | cons c rest ih =>
    intro i
    by_cases hdb : c.database_backup_enabled = true
    · have hcount : dbEnabledCount (c :: rest) = dbEnabledCount rest + 1 := by
        simp [dbEnabledCount, List.filter_cons, hdb]
      simp only [anyDbFail, hdb, if_pos, Bool.or_eq_true, hcount]
      rw [ih]
      constructor
      · rintro (hf | ⟨j, hjlt, hjf⟩)
        · exact ⟨0, by omega, by simpa using hf⟩
        · refine ⟨j + 1, by omega, ?_⟩
          have : i + (j + 1) = (i + 1) + j := by omega
          rw [this]
          exact hjf
      · rintro ⟨j, hjlt, hjf⟩
        cases j with
        | zero => exact Or.inl (by simpa using hjf)
        | succ k =>
          refine Or.inr ⟨k, by omega, ?_⟩
          have : (i + 1) + k = i + (k + 1) := by omega
          rw [this]
          exact hjf
    · have hcount : dbEnabledCount (c :: rest) = dbEnabledCount rest := by
        simp [dbEnabledCount, List.filter_cons, hdb]
      simp only [anyDbFail, hdb, if_neg, hcount]
      exact ih i

/-! ### Helper lemmas about mount filtering -/

theorem anyContains_ok (patterns : List String) (s : String) :
    anyContains patterns (some s) = Except.ok (patterns.any (fun p => strContains s p)) := by
  induction patterns with
  | nil => simp [anyContains]
  | cons p rest ih =>
    simp only [anyContains, List.any_cons]
    by_cases hp : strContains s p = true
    · simp [hp]
    · simp only [Bool.not_eq_true] at hp
      simp [hp, ih]

theorem filterInclude_ok (patterns : List String) (mounts : List Mount)
    (h : ∀ m ∈ mounts, m.source.isSome = true) :
    filterInclude patterns mounts =
      Except.ok (mounts.filter (fun m => mountMatchesAny patterns m)) := by
  induction mounts with
  | nil => simp [filterInclude]
  | cons m rest ih =>
    obtain ⟨s, hs⟩ := Option.isSome_iff_exists.mp (h m (List.mem_cons_self m rest))
    have hrest := ih (fun m2 h2 => h m2 (List.mem_cons_of_mem m h2))
    have hmatch : mountMatchesAny patterns m = patterns.any (fun p => strContains s p) := by
      simp [mountMatchesAny, hs]
    by_cases hb : patterns.any (fun p => strContains s p) = true
    · simp [filterInclude, hs, anyContains_ok, hrest, List.filter_cons, hmatch, hb]
    · simp only [Bool.not_eq_true] at hb
      simp [filterInclude, hs, anyContains_ok, hrest, List.filter_cons, hmatch, hb]

theorem filterExclude_ok (patterns : List String) (mounts : List Mount)
    (h : ∀ m ∈ mounts, m.source.isSome = true) :
    filterExclude patterns mounts =
      Except.ok (mounts.filter (fun m => !mountMatchesAny patterns m)) := by
  induction mounts with
  | nil => simp [filterExclude]
  | cons m rest ih =>
    obtain ⟨s, hs⟩ := Option.isSome_iff_exists.mp (h m (List.mem_cons_self m rest))
    have hrest := ih (fun m2 h2 => h m2 (List.mem_cons_of_mem m h2))
    have hmatch : mountMatchesAny patterns m = patterns.any (fun p => strContains s p) := by
      simp [mountMatchesAny, hs]
    by_cases hb : patterns.any (fun p => strContains s p) = true
    · simp [filterExclude, hs, anyContains_ok, hrest, List.filter_cons, hmatch, hb]
    · simp only [Bool.not_eq_true] at hb
      simp [filterExclude, hs, anyContains_ok, hrest, List.filter_cons, hmatch, hb]

/-! ### Claim theorems -/

/-- C1: the guard of the inner backup-process command is supposed to abort
whenever this container is not the recognized backup-process container, but
the chained comparison `this == bpc is False` is constantly false, so the
guard only checks that SOME backup-process container exists.  Concretely: a
group whose backup-process container is a different container than self
passes the guard and the full backup phase runs (volume backup, database
backup, cleanup) instead of aborting. -/
theorem C1_start_backup_process_guard_bug :
    ∃ rc, RunningContainers.init "aaa111" [selfRecA, otherRecA] = Except.ok rc ∧
      rc.backup_process_running = true ∧
      containerEq rc.this_container rc.backup_process_container = false ∧
      guardAborts rc = false ∧
      (start_backup_process envAllOk rc).1 ≠ RunOutcome.aborted ∧
      Ev.volumeBackup ∈ (start_backup_process envAllOk rc).2 ∧
      Ev.dbBackup 0 ∈ (start_backup_process envAllOk rc).2 := by
  refine ⟨_, rfl, ?_, ?_, ?_, ?_, ?_, ?_⟩ <;> decide

/-- C3: the inner backup process is supposed to exit 0 on success and 1
when cleanup fails, but `cleanup` returns the boolean
`forget == 0 and prune == 0` and the caller tests it with `!= 0`, so the
behaviour is inverted: with all targets succeeding, a failing forget makes
the process fall off the end (exit code 0), while a fully successful run
hits `exit(1)`. -/
theorem C3_cleanup_exit_code_bug :
    ∃ rc, RunningContainers.init "ccc" [selfRecB, peerRecB] = Except.ok rc ∧
      guardAborts rc = false ∧
      cleanup envForgetFails = false ∧
      (start_backup_process envForgetFails rc).1 = RunOutcome.completed ∧
      cleanup envAllOk = true ∧
      (start_backup_process envAllOk rc).1 = RunOutcome.exited 1 := by
  refine ⟨_, rfl, ?_, ?_, ?_, ?_, ?_⟩ <;> decide

/-- C5: `get_label` is supposed to return the caller-supplied default when
the key is absent, but the source ignores its `default` parameter
(`return self._labels.get(name, None)`): on a container with no compose
labels, `get_label` called with default `""` returns `None`, and so do
`service_name` and `project_name`. -/
theorem C5_get_label_default_bug :
    ∃ c, Container.init emptyLabelsRec = Except.ok c ∧
      c.get_label "com.docker.compose.service" (some "") = none ∧
      c.service_name = none ∧
      c.project_name = none := by
  refine ⟨_, rfl, ?_, ?_, ?_⟩ <;> decide

/-- C2 counterexample: both records have ids prefixed by the host
identifier "aa", yet discovery succeeds — binding self to the LAST matching
record — instead of failing with SelfNotFound as the claim requires for
multiple matches. -/
theorem C2_multiple_matches_counterexample :
    matchesHost "aa" selfRec2a = true ∧ matchesHost "aa" selfRec2b = true ∧
    ∃ rc, RunningContainers.init "aa" [selfRec2a, selfRec2b] = Except.ok rc ∧
      rc.this_container.id = some "aay222" := by
  refine ⟨by decide, by decide, _, rfl, ?_⟩
  decide

/-- C4 counterexample: among the records other than self, the FIRST one
carrying the backup-process marker is `markedRec1` (id fff111), but
discovery binds `backup_process_container` to the LAST marked record
(id ggg222), because each match in the loop overwrites the previous one. -/
theorem C4_last_marker_counterexample :
    (∃ c1, Container.init markedRec1 = Except.ok c1 ∧
      c1.is_backup_process_container = true ∧ c1.id = some "fff111") ∧
    ∃ rc, RunningContainers.init "eee" [selfRecC, markedRec1, markedRec2] = Except.ok rc ∧
      rc.backup_process_container.map Container.id = some (some "ggg222") := by
  constructor
  · refine ⟨_, rfl, ?_, ?_⟩ <;> decide
  · refine ⟨_, rfl, ?_⟩
    decide

/-- C6 counterexample: a same-project, non-one-off record whose running
state is false is still appended to the group — the discovery loop never
consults `is_running`, contradicting the claim that non-running records are
excluded. -/
theorem C6_running_state_counterexample :
    ∃ rc, RunningContainers.init "iii" [selfRecD, stoppedRec] = Except.ok rc ∧
      ∃ c, Container.init stoppedRec = Except.ok c ∧
        c.is_running = false ∧ c ∈ rc.containers := by
  refine ⟨_, rfl, _, rfl, ?_, ?_⟩ <;> decide

/-- C10 counterexample: a record whose running-state block, configuration
block and labels map are all present still fails to construct — with a
`TypeError`, not the MalformedRecord `ValueError` — because the mounts list
is built by iterating `data.get('Mounts')` (here absent, hence `None`)
before any validation. -/
theorem C10_construction_counterexample :
    noMountsRec.state = some [("Running", true)] ∧
    (∃ cfg, noMountsRec.config = some cfg ∧ cfg.labels = some []) ∧
    Container.init noMountsRec = Except.error PyError.typeError := by
  exact ⟨rfl, ⟨_, rfl, rfl⟩, rfl⟩

theorem sbp_of_errors (env : BackupEnv) (rc : RunningContainers)
    (h : guardAborts rc = false)
    (he : (dbLoop env.db_backup rc.containers_for_backup 0 (targetFailed env.backup_files)).1 = true) :
    start_backup_process env rc =
      (RunOutcome.exited 1,
        Ev.volumeBackup ::
          (dbLoop env.db_backup rc.containers_for_backup 0 (targetFailed env.backup_files)).2.2) := by
  simp only [start_backup_process, h, Bool.false_eq_true, if_false, he, if_true]

theorem sbp_of_ok_empty (env : BackupEnv) (rc : RunningContainers)
    (h : guardAborts rc = false)
    (he : (dbLoop env.db_backup rc.containers_for_backup 0 (targetFailed env.backup_files)).1 = false)
    (hlast : rc.containers_for_backup.getLast? = none) :
    start_backup_process env rc =
      (RunOutcome.crashed PyError.nameError,
        Ev.volumeBackup ::
          (dbLoop env.db_backup rc.containers_for_backup 0 (targetFailed env.backup_files)).2.2) := by
  simp only [start_backup_process, h, Bool.false_eq_true, if_false, he, hlast]

theorem sbp_of_ok_cleanup (env : BackupEnv) (rc : RunningContainers) (c0 : Container)
    (h : guardAborts rc = false)
    (he : (dbLoop env.db_backup rc.containers_for_backup 0 (targetFailed env.backup_files)).1 = false)
    (hlast : rc.containers_for_backup.getLast? = some c0) :
    start_backup_process env rc =
      ((if cleanup env then RunOutcome.exited 1 else RunOutcome.completed),
        (Ev.volumeBackup ::
          (dbLoop env.db_backup rc.containers_for_backup 0 (targetFailed env.backup_files)).2.2)
          ++ [Ev.forget, Ev.prune]) := by
  simp only [start_backup_process, h, Bool.false_eq_true, if_false, he, hlast, pyNeZero]
  by_cases hcl : cleanup env = true
  · simp [hcl]
  · simp only [Bool.not_eq_true] at hcl
    simp [hcl]

theorem sbp_trace_mem (env : BackupEnv) (rc : RunningContainers)
    (h : guardAborts rc = false) (x : Ev)
    (hx : x ∈ (dbLoop env.db_backup rc.containers_for_backup 0 (targetFailed env.backup_files)).2.2) :
    x ∈ (start_backup_process env rc).2 := by
  by_cases he : (dbLoop env.db_backup rc.containers_for_backup 0 (targetFailed env.backup_files)).1 = true
  · rw [sbp_of_errors env rc h he]
    exact List.mem_cons_of_mem _ hx
  · simp only [Bool.not_eq_true] at he
    cases hlast : rc.containers_for_backup.getLast? with
    | none =>
      rw [sbp_of_ok_empty env rc h he hlast]
      exact List.mem_cons_of_mem _ hx
    | some c0 =>
      rw [sbp_of_ok_cleanup env rc c0 h he hlast]
      exact List.mem_append_left _ (List.mem_cons_of_mem _ hx)

/-- C7: inside the inner backup process, every database-enabled target is
attempted no matter how the volume backup or the other database targets
fare, and as soon as any target fails the run exits with code 1 and the
forget/prune cleanup is skipped entirely. -/
theorem C7_partial_failure_tolerance (env : BackupEnv) (rc : RunningContainers)
    (h : guardAborts rc = false) :
    (∀ j, j < dbEnabledCount rc.containers_for_backup →
      Ev.dbBackup j ∈ (start_backup_process env rc).2) ∧
    ((targetFailed env.backup_files = true ∨
        ∃ j, j < dbEnabledCount rc.containers_for_backup ∧
          targetFailed (env.db_backup j) = true) →
      (start_backup_process env rc).1 = RunOutcome.exited 1 ∧
      Ev.forget ∉ (start_backup_process env rc).2 ∧
      Ev.prune ∉ (start_backup_process env rc).2) := by
  constructor
  · intro j hj
    have hmem := dbLoop_mem env.db_backup rc.containers_for_backup 0 (targetFailed env.backup_files) j hj
    rw [Nat.zero_add] at hmem
    exact sbp_trace_mem env rc h _ hmem
  · intro hfail
    have he : (dbLoop env.db_backup rc.containers_for_backup 0 (targetFailed env.backup_files)).1 = true := by
      rw [dbLoop_fst]
      rcases hfail with hv | ⟨j, hjlt, hjf⟩
      · rw [hv]
        rfl
      · have : anyDbFail env.db_backup rc.containers_for_backup 0 = true := by
          rw [anyDbFail_iff]
          exact ⟨j, hjlt, by simpa using hjf⟩
        rw [this]
        simp
    rw [sbp_of_errors env rc h he]
    refine ⟨rfl, ?_, ?_⟩
    · intro hmem
      rcases List.mem_cons.mp hmem with hmem | hmem
      · cases hmem
      · obtain ⟨k, hk⟩ := dbLoop_evs_shape env.db_backup rc.containers_for_backup 0 _ Ev.forget hmem
        cases hk
    · intro hmem
      rcases List.mem_cons.mp hmem with hmem | hmem
      · cases hmem
      · obtain ⟨k, hk⟩ := dbLoop_evs_shape env.db_backup rc.containers_for_backup 0 _ Ev.prune hmem
        cases hk

/-- Concrete group used for the C7 witness: self is the recognized
backup-process container and the single peer is database-enabled. -/
def rcW7 : RunningContainers :=
  { containers := [contOf peerRecB],
    this_container := contOf selfRecB,
    backup_process_container := some (contOf selfRecB) }

/-- C7 witness: with a raising volume backup, the single database target is
still attempted, the run exits 1, and no forget/prune is performed. -/
theorem C7_partial_failure_tolerance_witness :
    guardAborts rcW7 = false ∧
    0 < dbEnabledCount rcW7.containers_for_backup ∧
    targetFailed envVolumeRaises.backup_files = true ∧
    Ev.dbBackup 0 ∈ (start_backup_process envVolumeRaises rcW7).2 ∧
    (start_backup_process envVolumeRaises rcW7).1 = RunOutcome.exited 1 ∧
    Ev.forget ∉ (start_backup_process envVolumeRaises rcW7).2 := by
  refine ⟨by decide, by decide, by decide, ?_, ?_, ?_⟩
  · exact (C7_partial_failure_tolerance envVolumeRaises rcW7 (by decide)).1 0 (by decide)
  · exact ((C7_partial_failure_tolerance envVolumeRaises rcW7 (by decide)).2 (Or.inl (by decide))).1
  · exact ((C7_partial_failure_tolerance envVolumeRaises rcW7 (by decide)).2 (Or.inl (by decide))).2.1

/-- C8: for every discovered group, some record constructing into a
container that carries the backup-process marker label is exactly what
makes `backup_process_running` true, in which case the outer backup command
raises the AlreadyRunning error having performed no step at all (no
repository initialization, no spawn); when no such record exists the guard
passes, and the command initializes the repository and invokes the spawn
delegate. -/
theorem C8_single_flight_guard (hostname : String) (records : List ContainerData)
    (spawnResult : Except PyError Int) (rc : RunningContainers)
    (h : RunningContainers.init hostname records = Except.ok rc) :
    (rc.backup_process_running = true ↔
      ∃ r, r ∈ records ∧ ∃ c, Container.init r = Except.ok c ∧
        c.is_backup_process_container = true) ∧
    (rc.backup_process_running = true →
      backup spawnResult rc =
        ([], Except.error (PyError.valueError "Backup process already running"))) ∧
    (rc.backup_process_running = false →
      (backup spawnResult rc).1 = [BackupStep.initRepo, BackupStep.spawn] ∨
      (backup spawnResult rc).1 = [BackupStep.initRepo, BackupStep.spawn, BackupStep.alertSent]) := by
  obtain ⟨hfs, hsg⟩ := init_ok_inv hostname records rc h
  have hbpc : rc.backup_process_container = lastMarkedRec records := by
    have := scanGroup_bpc rc.this_container records none []
      (rc.backup_process_container, rc.containers) hsg
    simpa [optOr_none] using this
  refine ⟨?_, ?_, ?_⟩
  · rw [RunningContainers.backup_process_running, hbpc]
    exact lastMarkedRec_isSome_iff records
  · intro hrun
    simp [backup, hrun]
  · intro hnrun
    cases spawnResult with
    | error e => right; simp [backup, hnrun]
    | ok code =>
      by_cases hc : code = 0
      · left; simp [backup, hnrun, hc]
      · right; simp [backup, hnrun, hc]

/-- C8 witness: in the concrete group where self carries the marker label,
the guard is up and the backup command aborts with the AlreadyRunning error
without performing any step. -/
theorem C8_single_flight_guard_witness :
    ∃ rc, RunningContainers.init "ccc" [selfRecB, peerRecB] = Except.ok rc ∧
      rc.backup_process_running = true ∧
      backup (Except.ok 0) rc =
        ([], Except.error (PyError.valueError "Backup process already running")) := by
  refine ⟨_, rfl, by decide, ?_⟩
  exact (C8_single_flight_guard "ccc" [selfRecB, peerRecB] (Except.ok 0) _ rfl).2.1 (by decide)

theorem init_eq_of_findSelf_scan (hostname : String) (records : List ContainerData)
    (thisC : Container) (res : Option Container × List Container)
    (h1 : findSelf hostname records none = Except.ok (some thisC))
    (h2 : scanGroup thisC records none [] = Except.ok res) :
    RunningContainers.init hostname records =
      Except.ok { containers := res.2, this_container := thisC, backup_process_container := res.1 } := by
  unfold RunningContainers.init
  split
  · rename_i e heq
    rw [h1] at heq
    cases heq
  · rename_i heq
    rw [h1] at heq
    cases heq
  · rename_i thisC2 heq
    rw [h1] at heq
    injection heq with heq2
    injection heq2 with heq3
    subst heq3
    split
    · rename_i e heq4
      rw [h2] at heq4
      cases heq4
    · rename_i bpc cs heq4
      rw [h2] at heq4
      injection heq4 with heq5
      subst heq5
      rfl

/-- C2 amended: under well-formed records (ids present, all records
constructible), discovery binds self to the LAST record whose id is
prefixed by the host identifier when at least one match exists — later
matches overwrite earlier ones — and fails with the SelfNotFound error only
when no record matches. -/
theorem C2_self_identification_amended (hostname : String) (records : List ContainerData)
    (hids : ∀ r ∈ records, r.id.isSome = true)
    (hok : ∀ r ∈ records, ∃ c, Container.init r = Except.ok c) :
    (lastMatchingRecord hostname records = none →
      RunningContainers.init hostname records =
        Except.error (PyError.valueError "Cannot find metadata for backup container")) ∧
    (∀ r, lastMatchingRecord hostname records = some r →
      ∃ rc, RunningContainers.init hostname records = Except.ok rc ∧
        Container.init r = Except.ok rc.this_container) := by
  have hokm : ∀ r ∈ records, matchesHost hostname r = true →
      ∃ c, Container.init r = Except.ok c :=
    fun r hr _ => hok r hr
  have hfs := findSelf_spec hostname records none hids hokm
  constructor
  · intro hl
    have h1 : findSelf hostname records none = Except.ok none := hfs.1 hl
    unfold RunningContainers.init
    rw [h1]
  · intro r hl
    obtain ⟨c, hc, h1⟩ := hfs.2 r hl
    obtain ⟨res, hres⟩ := scanGroup_ok c records none [] hok
    exact ⟨{ containers := res.2, this_container := c, backup_process_container := res.1 },
      init_eq_of_findSelf_scan hostname records c res h1 hres, hc⟩

/-- C2 witness: a single matching record; the amended theorem yields a
successful discovery binding self to that record. -/
theorem C2_self_identification_witness :
    lastMatchingRecord "aa" [selfRec2a] = some selfRec2a ∧
    ∃ rc, RunningContainers.init "aa" [selfRec2a] = Except.ok rc ∧
      Container.init selfRec2a = Except.ok rc.this_container := by
  refine ⟨by decide, ?_⟩
  refine (C2_self_identification_amended "aa" [selfRec2a] (by decide) ?_).2 selfRec2a (by decide)
  intro r hr
  rw [List.mem_singleton] at hr
  subst hr
  exact ⟨_, rfl⟩

/-- C4 amended: `backup_process_container` is bound to the container of the
LAST record in the full record list — self included — that carries the
backup-process marker label, and stays unset when no record carries it. -/
theorem C4_backup_process_container_amended (hostname : String) (records : List ContainerData)
    (rc : RunningContainers) (h : RunningContainers.init hostname records = Except.ok rc) :
    rc.backup_process_container = lastMarkedRec records := by
  obtain ⟨hfs, hsg⟩ := init_ok_inv hostname records rc h
  have := scanGroup_bpc rc.this_container records none []
    (rc.backup_process_container, rc.containers) hsg
  simpa [optOr_none] using this

/-- C4 witness: the amended theorem applied to the concrete two-marker
group. -/
theorem C4_backup_process_container_witness :
    ∃ rc, RunningContainers.init "eee" [selfRecC, markedRec1, markedRec2] = Except.ok rc ∧
      rc.backup_process_container = lastMarkedRec [selfRecC, markedRec1, markedRec2] := by
  refine ⟨_, rfl, ?_⟩
  exact C4_backup_process_container_amended "eee" [selfRecC, markedRec1, markedRec2] _ rfl

/-- C6 amended: a container is in the discovered group exactly when it
comes from one of the records, its project name equals self's project name,
it is not one-off, and its id differs from self's — the running state is
never consulted. -/
theorem C6_peers_membership_amended (hostname : String) (records : List ContainerData)
    (rc : RunningContainers) (h : RunningContainers.init hostname records = Except.ok rc)
    (x : Container) :
    x ∈ rc.containers ↔
      ∃ r, r ∈ records ∧ Container.init r = Except.ok x ∧
        (x.project_name = rc.this_container.project_name ∧ x.is_oneoff = false ∧
          x.id ≠ rc.this_container.id) := by
  obtain ⟨hfs, hsg⟩ := init_ok_inv hostname records rc h
  have := scanGroup_mem rc.this_container records none []
    (rc.backup_process_container, rc.containers) hsg x
  simpa using this

/-- C6 witness: the amended membership characterization applied to the
group containing the stopped record. -/
theorem C6_peers_membership_witness :
    ∃ rc, RunningContainers.init "iii" [selfRecD, stoppedRec] = Except.ok rc ∧
      ((contOf stoppedRec) ∈ rc.containers ↔
        ∃ r, r ∈ [selfRecD, stoppedRec] ∧ Container.init r = Except.ok (contOf stoppedRec) ∧
          ((contOf stoppedRec).project_name = rc.this_container.project_name ∧
            (contOf stoppedRec).is_oneoff = false ∧
            (contOf stoppedRec).id ≠ rc.this_container.id)) := by
  refine ⟨_, rfl, ?_⟩
  exact C6_peers_membership_amended "iii" [selfRecD, stoppedRec] _ rfl (contOf stoppedRec)

/-- C9: mount filtering.  When the include pattern list is set (truthy) the
result is exactly the mounts whose source contains at least one include
pattern, in original order, regardless of any exclude list; otherwise, when
the exclude list is set, exactly the mounts containing none of the exclude
patterns; otherwise all mounts unchanged. -/
theorem C9_filter_mounts (c : Container)
    (h : ∀ m ∈ c.mounts, m.source.isSome = true) :
    (pyTruthyPatterns c.includePatterns = true →
      c.filter_mounts =
        Except.ok (c.mounts.filter (fun m => mountMatchesAny (c.includePatterns.getD []) m))) ∧
    (pyTruthyPatterns c.includePatterns = false → pyTruthyPatterns c.excludePatterns = true →
      c.filter_mounts =
        Except.ok (c.mounts.filter (fun m => !mountMatchesAny (c.excludePatterns.getD []) m))) ∧
    (pyTruthyPatterns c.includePatterns = false → pyTruthyPatterns c.excludePatterns = false →
      c.filter_mounts = Except.ok c.mounts) := by
  refine ⟨?_, ?_, ?_⟩
  · intro hi
    simp only [Container.filter_mounts, hi, if_true]
    exact filterInclude_ok _ _ h
  · intro hi he
    simp only [Container.filter_mounts, hi, he, Bool.false_eq_true, if_false, if_true]
    exact filterExclude_ok _ _ h
  · intro hi he
    simp only [Container.filter_mounts, hi, he, Bool.false_eq_true, if_false]

def mediaMountData : MountData :=
  { type := some "bind", name := none,
    source := some "/srv/files/media", destination := some "/srv/media" }

def stuffMountData : MountData :=
  { type := some "bind", name := none,
    source := some "/srv/files/stuff", destination := some "/srv/stuff" }

/-- A container record with an include filter "media" and two mounts, as in
the specification's test scenario. -/
def webRec : ContainerData :=
  { id := some "web111",
    name := some "/web",
    state := some [("Running", true)],
    config := some
      { image := some "img", env := some [],
        labels := some [("restic-compose-backup.volumes.include", "media")] },
    mounts := some [mediaMountData, stuffMountData] }

/-- C9 witness: on the concrete include-filtered container, filtering keeps
exactly the media mount. -/
theorem C9_filter_mounts_witness :
    (∀ m ∈ (contOf webRec).mounts, m.source.isSome = true) ∧
    pyTruthyPatterns (contOf webRec).includePatterns = true ∧
    (contOf webRec).filter_mounts =
      Except.ok ((contOf webRec).mounts.filter
        (fun m => mountMatchesAny ((contOf webRec).includePatterns.getD []) m)) ∧
    (contOf webRec).filter_mounts = Except.ok [{ data := mediaMountData }] := by
  refine ⟨by decide, by decide, ?_, by rfl⟩
  exact (C9_filter_mounts (contOf webRec) (by decide)).1 (by decide)

/-- C10 amended: construction fails with `TypeError` whenever the mounts
list is absent (this happens before any validation); given mounts, it fails
with the MalformedRecord `ValueError` naming State when the running-state
block is absent or empty, then Config when the configuration block is
absent, then the labels map; it succeeds exactly when mounts are present,
the state block is present and non-empty, and the configuration block with
its labels map is present. -/
theorem C10_construction_amended (data : ContainerData) :
    (data.mounts = none → Container.init data = Except.error PyError.typeError) ∧
    (data.mounts ≠ none → (data.state = none ∨ data.state = some []) →
      Container.init data = Except.error (PyError.valueError "Container meta missing State")) ∧
    (data.mounts ≠ none → ¬(data.state = none ∨ data.state = some []) → data.config = none →
      Container.init data = Except.error (PyError.valueError "Container meta missing Config")) ∧
    (data.mounts ≠ none → ¬(data.state = none ∨ data.state = some []) →
      ∀ cfg, data.config = some cfg → cfg.labels = none →
        Container.init data =
          Except.error (PyError.valueError "Container meta missing Config->Labels")) ∧
    (data.mounts ≠ none → ¬(data.state = none ∨ data.state = some []) →
      ∀ cfg, data.config = some cfg → cfg.labels ≠ none →
        ∃ c, Container.init data = Except.ok c) := by
  refine ⟨?_, ?_, ?_, ?_, ?_⟩
  · intro hm
    simp [Container.init, hm]
  · intro hm hs
    cases hmm : data.mounts with
    | none => exact absurd hmm hm
    | some ms =>
      simp only [Container.init, hmm]
      rw [if_pos hs]
  · intro hm hs hc
    cases hmm : data.mounts with
    | none => exact absurd hmm hm
    | some ms =>
      simp only [Container.init, hmm]
      rw [if_neg hs, hc]
  · intro hm hs cfg hc hlab
    cases hmm : data.mounts with
    | none => exact absurd hmm hm
    | some ms =>
      simp only [Container.init, hmm, hc, hlab]
      rw [if_neg hs]
  · intro hm hs cfg hc hlab
    cases hmm : data.mounts with
    | none => exact absurd hmm hm
    | some ms =>
      cases hll : cfg.labels with
      | none => exact absurd hll hlab
      | some labels =>
        refine ⟨
          { data := data,
            state := data.state.getD [],
            config := cfg,
            labels := labels,
            mounts := ms.map (fun m => { data := m }),
            includePatterns :=
              parsePattern (List.lookup "restic-compose-backup.volumes.include" labels),
            excludePatterns :=
              parsePattern (List.lookup "restic-compose-backup.volumes.exclude" labels) }, ?_⟩
        simp only [Container.init, hmm, hc, hll]
        rw [if_neg hs]

/-- C10 witness: the amended theorem's success branch applied to a
fully well-formed record. -/
theorem C10_construction_witness :
    ∃ c, Container.init (mkRecord "www111" []) = Except.ok c :=
  (C10_construction_amended (mkRecord "www111" [])).2.2.2.2 (by decide) (by decide) _ rfl (by decide)

end ResticComposeBackup
